import Mathlib

/-!
Shallow embedding of the powerstrip AT-command codec
(src/powerstrip/powerstrip.py) and proofs about its claims.

The transport collaborator (the serial port) is modelled as a function from
the command text to the raw reply line; each method of the Powerstrip class
is modelled as a function returning the list of commands it writes to the
transport together with its typed result.  The Python builtins the code
relies on (str.strip, int(s, 16), bin, float(s), str of a float) are
modelled on character lists, faithful to their documented behaviour on the
ASCII inputs this protocol deals in.
-/

namespace Powerstrip

/-- Drops leading and trailing whitespace characters from a character list.
Models the character-level behaviour of Python str.strip() with no
arguments, as called in Powerstrip._send_command, and the whitespace
stripping performed by int() and float() on their string argument. -/
def trimL (l : List Char) : List Char :=
  ((l.dropWhile Char.isWhitespace).reverse.dropWhile Char.isWhitespace).reverse

/-- Models Python str.strip() on a string value. -/
def strip (s : String) : String := ⟨trimL s.toList⟩

/-- The value of one hexadecimal digit character, as accepted by
Python int(s, 16); none for a non-digit. -/
def hexDigitVal? (c : Char) : Option Nat :=
  if c.isDigit then some (c.toNat - 48)
  else if 'a' ≤ c ∧ c ≤ 'f' then some (c.toNat - 87)
  else if 'A' ≤ c ∧ c ≤ 'F' then some (c.toNat - 55)
  else none

/-- Consumes the remaining characters of a hexadecimal literal after its
first digit, allowing single underscores between digits as Python does;
the whole remainder must be consumed, any other character is an error. -/
def hexRunGo : List Char → Nat → Option Nat
  | '_' :: c :: cs, acc =>
    match hexDigitVal? c with
    | some d => hexRunGo cs (16 * acc + d)
    | none => none
  | ['_'], _ => none
  | c :: cs, acc =>
    match hexDigitVal? c with
    | some d => hexRunGo cs (16 * acc + d)
    | none => none
  | [], acc => some acc

/-- A nonempty run of hexadecimal digits with optional single underscores
between digits, consuming the whole list. -/
def hexRun : List Char → Option Nat
  | c :: cs =>
    match hexDigitVal? c with
    | some d => hexRunGo cs d
    | none => none
  | [] => none

/-- Digits of a hexadecimal literal after an 0x or 0X prefix; Python
additionally allows one underscore directly after the prefix. -/
def hexAfterPrefix : List Char → Option Nat
  | '_' :: r => hexRun r
  | r => hexRun r

/-- Magnitude of a hexadecimal literal after the optional sign: either an
0x-prefixed or a bare digit run. -/
def hexBody : List Char → Option Nat
  | '0' :: 'x' :: r => hexAfterPrefix r
  | '0' :: 'X' :: r => hexAfterPrefix r
  | r => hexRun r

/-- Models Python int(s, 16): surrounding whitespace, an optional sign, an
optional 0x prefix and a nonempty underscore-grouped digit run; none when
int would raise ValueError. -/
def pyIntHex? (s : String) : Option Int :=
  match trimL s.toList with
  | '+' :: r => (hexBody r).map (fun m => (m : Int))
  | '-' :: r => (hexBody r).map (fun m => -(m : Int))
  | r => (hexBody r).map (fun m => (m : Int))

/-- Binary digits of a natural number, least significant first, with an
explicit fuel argument so that the definition is structurally recursive
and evaluates inside the kernel. -/
def bitsLsbAux : Nat → Nat → List Bool
  | 0, _ => []
  | fuel + 1, n => if n = 0 then [] else (n % 2 == 1) :: bitsLsbAux fuel (n / 2)

/-- Binary digits of a natural number, least significant first; empty for
zero. -/
def bitsLsb (n : Nat) : List Bool := bitsLsbAux n n

/-- Models the characters of Python bin(n) after the 0b prefix, read as
booleans: most significant bit first, no zero padding, and the single
digit 0 (that is, [false]) for n = 0. -/
def binDigits (n : Nat) : List Bool := if n = 0 then [false] else (bitsLsb n).reverse

/-- Reinterprets a most-significant-bit-first list of booleans as the
binary digits of a natural number. -/
def boolsToNat (bs : List Bool) : Nat := bs.foldl (fun acc b => 2 * acc + cond b 1 0) 0

/-- Models the reply decoding shared by get_all_ac, get_all_3v and
get_all_5v: the list comprehension over bin(int(response, 16))[2:].  When
int raises ValueError the decode fails; when the parsed value is negative,
bin yields a -0b prefix whose letter b survives the [2:] slice and
int(bit) raises ValueError, so the decode also fails. -/
def decode_bitmask (s : String) : Option (List Bool) :=
  match pyIntHex? s with
  | none => none
  | some v => if v < 0 then none else some (binDigits v.toNat)

/-- The value of one decimal digit character; none for a non-digit. -/
def decDigitVal? (c : Char) : Option Nat :=
  if c.isDigit then some (c.toNat - 48) else none

/-- Consumes a run of decimal digits with single underscores between
digits after its first digit, returning the accumulated value, the number
of digits read and the unconsumed remainder. -/
def decRunGo : List Char → Nat → Nat → Option (Nat × Nat × List Char)
  | '_' :: c :: cs, acc, k =>
    match decDigitVal? c with
    | some d => decRunGo cs (10 * acc + d) (k + 1)
    | none => none
  | ['_'], _, _ => none
  | c :: cs, acc, k =>
    match decDigitVal? c with
    | some d => decRunGo cs (10 * acc + d) (k + 1)
    | none => some (acc, k, c :: cs)
  | [], acc, k => some (acc, k, [])

/-- A nonempty run of decimal digits with optional single underscores
between digits, returning value, digit count and remainder. -/
def decRun : List Char → Option (Nat × Nat × List Char)
  | c :: cs =>
    match decDigitVal? c with
    | some d => decRunGo cs d 1
    | none => none
  | [] => none

/-- The exact rational value of a float literal with integer part ip and
k fractional digits of value f. -/
def mkDec (ip f k : Nat) : ℚ := (ip : ℚ) + (f : ℚ) / (10 : ℚ) ^ k

/-- A full run of decimal digits consuming the whole list, as required for
the exponent part of a float literal. -/
def expRun (l : List Char) : Option Nat :=
  match decRun l with
  | some (e, _, []) => some e
  | _ => none

/-- The exponent digits of a float literal with their optional sign,
applied to the mantissa value. -/
def parseExpDigits (l : List Char) (q : ℚ) : Option ℚ :=
  match l with
  | '+' :: r => (expRun r).map (fun e => q * (10 : ℚ) ^ e)
  | '-' :: r => (expRun r).map (fun e => q / (10 : ℚ) ^ e)
  | r => (expRun r).map (fun e => q * (10 : ℚ) ^ e)

/-- After the mantissa of a float literal: either nothing, or an exponent
marker e or E followed by exponent digits; anything else is an error. -/
def parseExpTail (l : List Char) (q : ℚ) : Option ℚ :=
  match l with
  | [] => some q
  | 'e' :: r => parseExpDigits r q
  | 'E' :: r => parseExpDigits r q
  | _ => none

/-- The numeric body of a Python float literal: digits with an optional
fractional part, or a fractional part alone, followed by an optional
exponent; the whole list must be consumed. -/
def parseDecimal (l : List Char) : Option ℚ :=
  match l with
  | '.' :: r =>
    match decRun r with
    | some (f, k, rest) => parseExpTail rest (mkDec 0 f k)
    | none => none
  | _ =>
    match decRun l with
    | none => none
    | some (ip, _, rest) =>
      match rest with
      | '.' :: r2 =>
        match decRun r2 with
        | some (f, k, rest2) => parseExpTail rest2 (mkDec ip f k)
        | none => parseExpTail r2 (mkDec ip 0 0)
      | _ => parseExpTail rest (mkDec ip 0 0)

/-- The value of a Python float: a finite rational (the values this
protocol deals in are exact decimals), an infinity, or nan. -/
inductive PyFloat where
  | finite (q : ℚ) : PyFloat
  | inf : PyFloat
  | neginf : PyFloat
  | nan : PyFloat
deriving DecidableEq

/-- Lowercases every character of a list. -/
def lowerList (l : List Char) : List Char := l.map Char.toLower

/-- The body of a Python float string after the optional sign: one of the
named specials inf, infinity or nan (case-insensitive), or a numeric
literal. -/
def pyFloatBody (l : List Char) (neg : Bool) : Option PyFloat :=
  if lowerList l = ['i', 'n', 'f'] ∨ lowerList l = ['i', 'n', 'f', 'i', 'n', 'i', 't', 'y'] then
    some (if neg then PyFloat.neginf else PyFloat.inf)
  else if lowerList l = ['n', 'a', 'n'] then some PyFloat.nan
  else (parseDecimal l).map (fun q => PyFloat.finite (if neg then -q else q))

/-- Models Python float(s) on the characters of s: surrounding whitespace,
an optional sign, then a named special or a numeric literal; none when
float would raise ValueError. -/
def pyFloat? (l : List Char) : Option PyFloat :=
  match trimL l with
  | '+' :: r => pyFloatBody r false
  | '-' :: r => pyFloatBody r true
  | r => pyFloatBody r false

/-- Fractional decimal digits of the reduced fraction r / den, produced by
repeated multiplication by ten; fuel bounds the number of digits. -/
def fracDigitsAux : Nat → Nat → Nat → List Nat
  | 0, _, _ => []
  | fuel + 1, r, den => (r * 10 / den) :: fracDigitsAux fuel (r * 10 % den) den

/-- Removes trailing zero digits. -/
def trimZeros (l : List Nat) : List Nat := (l.reverse.dropWhile (fun d => d == 0)).reverse

/-- Renders a list of decimal digit values as characters. -/
def digitsString (l : List Nat) : String := ⟨l.map (fun d => Char.ofNat (48 + d))⟩

/-- Models Python str() on a float whose value is the exact decimal
rational q, as interpolated by the f-string in set_variable: optional
minus sign, integer part, a dot, then the fractional digits with trailing
zeros removed but at least one digit kept, so that str(3.0) is 3.0 and
str(3.5) is 3.5.  Seventeen fractional digits suffice for every float
whose shortest repr is a plain decimal, which covers the validated
domain of set_variable. -/
def floatStr (q : ℚ) : String :=
  let a := q.num.natAbs
  let ip := a / q.den
  let ds := trimZeros (fracDigitsAux 17 (a % q.den) q.den)
  let frac := if ds = [] then "0" else digitsString ds
  (if q < 0 then "-" else "") ++ Nat.repr ip ++ "." ++ frac

/-- The polarity enumeration of the 5V output with its wire tokens taken
from the Enum values in the source. -/
inductive Polarity where
  | POSITIVE : Polarity
  | NEGATIVE : Polarity
  | OFF : Polarity
deriving DecidableEq

/-- The wire token of each Polarity variant, that is, its Enum value. -/
def Polarity.value : Polarity → String
  | .POSITIVE => "VPOS"
  | .NEGATIVE => "VNEG"
  | .OFF => "OFF"

/-- Models the Enum value lookup Polarity(response): the variant whose
value equals the string, none (a ValueError in Python) otherwise. -/
def Polarity.ofValue? (s : String) : Option Polarity :=
  if s = "VPOS" then some Polarity.POSITIVE
  else if s = "VNEG" then some Polarity.NEGATIVE
  else if s = "OFF" then some Polarity.OFF
  else none

/-- The result of the validated set_variable: either the ValueError raised
by the client-side check, or the boolean comparison of the reply. -/
inductive VarResult where
  | error (msg : String) : VarResult
  | ok (b : Bool) : VarResult
deriving DecidableEq

/-- The serial transport collaborator, modelled as the function taking the
command text written by _send_command to the raw reply line it reads. -/
abbrev Transport := String → String

/-- Models the reply handling of Powerstrip._send_command: one write of
the command, one read, and str.strip() on the decoded line. -/
def send_command (t : Transport) (cmd : String) : String := strip (t cmd)

/-- Models the f-string interpolation of int(state): 1 for True, 0 for
False. -/
def pyBool (b : Bool) : String := if b then "1" else "0"

/-- Models Powerstrip.ping: sends AT and compares the reply with OK.  The
first component of every operation model is the list of commands written
to the transport, in order. -/
def ping (t : Transport) : List String × Bool :=
  (["AT"], send_command t "AT" == "OK")

/-- Models Powerstrip.set_echo. -/
def set_echo (t : Transport) (state : Bool) : List String × Bool :=
  (["ATE=" ++ pyBool state], send_command t ("ATE=" ++ pyBool state) == "OK")

/-- Models Powerstrip.get_echo. -/
def get_echo (t : Transport) : List String × Bool :=
  (["ATE?"], send_command t "ATE?" == "1")

/-- Models Powerstrip.reset. -/
def reset (t : Transport) : List String × Bool :=
  (["ATR"], send_command t "ATR" == "OK")

/-- Models Powerstrip.get_firmware_version: the reply is passed through. -/
def get_firmware_version (t : Transport) : List String × String :=
  (["ATVER?"], send_command t "ATVER?")

/-- Models Powerstrip.set_all_ac. -/
def set_all_ac (t : Transport) (state : Bool) : List String × Bool :=
  (["ATAC=" ++ pyBool state], send_command t ("ATAC=" ++ pyBool state) == "OK")

/-- Models Powerstrip.get_all_ac. -/
def get_all_ac (t : Transport) : List String × Option (List Bool) :=
  (["ATAC?"], decode_bitmask (send_command t "ATAC?"))

/-- Models Powerstrip.set_ac: the rail index x is interpolated into the
command with no validation whatsoever. -/
def set_ac (t : Transport) (x : Int) (state : Bool) : List String × Bool :=
  (["ATAC" ++ toString x ++ "=" ++ pyBool state],
    send_command t ("ATAC" ++ toString x ++ "=" ++ pyBool state) == "OK")

/-- Models Powerstrip.set_all_3v. -/
def set_all_3v (t : Transport) (state : Bool) : List String × Bool :=
  (["AT3V=" ++ pyBool state], send_command t ("AT3V=" ++ pyBool state) == "OK")

/-- Models Powerstrip.get_all_3v. -/
def get_all_3v (t : Transport) : List String × Option (List Bool) :=
  (["AT3V?"], decode_bitmask (send_command t "AT3V?"))

/-- Models Powerstrip.set_3v: like set_ac, no validation of the index. -/
def set_3v (t : Transport) (x : Int) (state : Bool) : List String × Bool :=
  (["AT3V" ++ toString x ++ "=" ++ pyBool state],
    send_command t ("AT3V" ++ toString x ++ "=" ++ pyBool state) == "OK")

/-- Models Powerstrip.set_all_5v: the bulk setter of the 5V rail class. -/
def set_all_5v (t : Transport) (state : Bool) : List String × Bool :=
  (["AT5V=" ++ pyBool state], send_command t ("AT5V=" ++ pyBool state) == "OK")

/-- Models Powerstrip.get_all_5v. -/
def get_all_5v (t : Transport) : List String × Option (List Bool) :=
  (["AT5V?"], decode_bitmask (send_command t "AT5V?"))

/-- Models Powerstrip.set_5v_polarity. -/
def set_5v_polarity (t : Transport) (p : Polarity) : List String × Bool :=
  (["ATVPOL=" ++ p.value], send_command t ("ATVPOL=" ++ p.value) == "OK")

/-- Models Powerstrip.get_5v_polarity: the reply is looked up in the
Polarity enumeration. -/
def get_5v_polarity (t : Transport) : List String × Option Polarity :=
  (["ATVPOL?"], Polarity.ofValue? (send_command t "ATVPOL?"))

/-- Models the second (overriding, validated) Powerstrip.set_variable: the
ValueError check precedes the transport call, so on a failed check the
command list is empty. -/
def set_variable (t : Transport) (n : ℚ) : List String × VarResult :=
  if n ≠ 0 ∧ (n < 2 ∨ 5 < n) then
    ([], VarResult.error "n must be 0.0 or between 2.0 and 5.0")
  else
    (["ATVAR=" ++ floatStr n],
      VarResult.ok (send_command t ("ATVAR=" ++ floatStr n) == "OK"))

/-- Models the reply decoding of the second (overriding)
Powerstrip.get_variable: float(response[1:]) when the reply starts with V,
the float 0.0 otherwise. -/
def get_variable_decode (r : String) : Option PyFloat :=
  match r.toList with
  | c :: rest => if c = 'V' then pyFloat? rest else some (PyFloat.finite 0)
  | [] => some (PyFloat.finite 0)

/-- Models the second (overriding) Powerstrip.get_variable. -/
def get_variable (t : Transport) : List String × Option PyFloat :=
  (["ATVAR?"], get_variable_decode (send_command t "ATVAR?"))

/-- The fuel argument of bitsLsbAux is irrelevant as long as it bounds the
number. -/
lemma bitsLsbAux_eq_of_le : ∀ f1 f2 n : Nat, n ≤ f1 → n ≤ f2 →
    bitsLsbAux f1 n = bitsLsbAux f2 n := by
  intro f1
  induction f1 with
  | zero =>
    intro f2 n h1 h2
    have hn : n = 0 := by omega
    subst hn
    cases f2 <;> simp [bitsLsbAux]
  | succ f1 ih =>
    intro f2 n h1 h2
    by_cases hn : n = 0
    · subst hn
      cases f2 <;> simp [bitsLsbAux]
    · cases f2 with
      | zero => omega
      | succ f2 =>
        simp only [bitsLsbAux, if_neg hn]
        rw [ih f2 (n / 2) (by omega) (by omega)]

/-- Unfolding equation of bitsLsb. -/
lemma bitsLsb_eq (n : Nat) :
    bitsLsb n = if n = 0 then [] else (n % 2 == 1) :: bitsLsb (n / 2) := by
  by_cases hn : n = 0
  · subst hn
    simp [bitsLsb, bitsLsbAux]
  · obtain ⟨m, rfl⟩ : ∃ m, n = m + 1 := ⟨n - 1, by omega⟩
    rw [if_neg hn]
    show bitsLsbAux (m + 1) (m + 1) = _
    simp only [bitsLsbAux, if_neg hn]
    rw [bitsLsbAux_eq_of_le m ((m + 1) / 2) ((m + 1) / 2) (by omega) (by omega)]
    rfl

/-- Folding the least-significant-first binary digits of n back into a
number recovers n. -/
lemma foldrVal_bitsLsb (n : Nat) :
    (bitsLsb n).foldr (fun b acc => 2 * acc + cond b 1 0) 0 = n := by
  induction n using Nat.strong_induction_on with
  | _ n ih =>
    rw [bitsLsb_eq]
    by_cases hn : n = 0
    · simp [hn]
    · rw [if_neg hn]
      simp only [List.foldr_cons]
      rw [ih (n / 2) (by omega)]
      rcases Nat.mod_two_eq_zero_or_one n with h2 | h2 <;> simp [h2] <;> omega

/-- The number of significant binary digits of a positive n is
log2 n + 1. -/
lemma length_bitsLsb (n : Nat) (hn : 0 < n) :
    (bitsLsb n).length = Nat.log2 n + 1 := by
  induction n using Nat.strong_induction_on with
  | _ n ih =>
    rw [bitsLsb_eq, if_neg (by omega)]
    by_cases h2 : n < 2
    · have h1 : n = 1 := by omega
      subst h1
      rw [bitsLsb_eq]
      simp [Nat.log2]
    · simp only [List.length_cons]
      rw [ih (n / 2) (by omega) (by omega)]
      conv_rhs => rw [Nat.log2]
      rw [if_pos (by omega)]

/-- Reinterpreting the decoded bitmask digits of n recovers n. -/
lemma boolsToNat_binDigits (n : Nat) : boolsToNat (binDigits n) = n := by
  by_cases hn : n = 0
  · subst hn
    decide
  · unfold binDigits boolsToNat
    rw [if_neg hn, List.foldl_reverse]
    exact foldrVal_bitsLsb n

/-- The decoded bitmask of n has one digit for n = 0 and log2 n + 1
digits otherwise. -/
lemma length_binDigits (n : Nat) :
    (binDigits n).length = if n = 0 then 1 else Nat.log2 n + 1 := by
  by_cases hn : n = 0
  · subst hn
    decide
  · rw [binDigits, if_neg hn, if_neg hn, List.length_reverse]
    exact length_bitsLsb n (by omega)

/-- Claim C1: for every reply string that is a valid hexadecimal integer,
the bulk rail getters get_all_ac, get_all_3v and get_all_5v decode it into
one ordered list of booleans, most significant bit first, such that
reinterpreting the booleans as a binary integer gives back the original
value, whose length is floor(log2(value)) + 1 when the value is positive
and 1 (the single element false) when the value is zero; in particular the
reply A decodes to [true, false, true, false]. -/
theorem claim1_bitmask_roundtrip (s : String) (v : Nat)
    (hs : strip s = s) (h : pyIntHex? s = some (v : Int)) :
    (∃ bs : List Bool,
      (get_all_ac (fun _ => s)).2 = some bs ∧
      (get_all_3v (fun _ => s)).2 = some bs ∧
      (get_all_5v (fun _ => s)).2 = some bs ∧
      boolsToNat bs = v ∧
      bs.length = if v = 0 then 1 else Nat.log2 v + 1) ∧
    (get_all_ac (fun _ => "A")).2 = some [true, false, true, false] := by
  constructor
  · have e : decode_bitmask s = some (binDigits v) := by
      simp only [decode_bitmask, h]
      rw [if_neg (by omega : ¬((v : Int) < 0))]
      simp
    refine ⟨binDigits v, ?_, ?_, ?_, boolsToNat_binDigits v, length_binDigits v⟩ <;>
      simpa [get_all_ac, get_all_3v, get_all_5v, send_command, hs] using e
  · decide

/-- Witness for claim C1 at the reply A, which parses as the hexadecimal
value ten. -/
theorem claim1_bitmask_roundtrip_witness :
    (∃ bs : List Bool,
      (get_all_ac (fun _ => "A")).2 = some bs ∧
      (get_all_3v (fun _ => "A")).2 = some bs ∧
      (get_all_5v (fun _ => "A")).2 = some bs ∧
      boolsToNat bs = 10 ∧
      bs.length = if 10 = 0 then 1 else Nat.log2 10 + 1) ∧
    (get_all_ac (fun _ => "A")).2 = some [true, false, true, false] :=
  claim1_bitmask_roundtrip "A" 10 (by decide) (by decide)

/-- Claim C3: polarity encoding and decoding form a bijection on the three
wire tokens VPOS, VNEG and OFF: for every Polarity variant, the token that
set_5v_polarity embeds in its command decodes through get_5v_polarity back
to the original variant, and every reply token outside the three fails
with an error rather than returning any default variant. -/
theorem claim3_polarity_roundtrip :
    (∀ p : Polarity, ∃ tok : String,
      (set_5v_polarity (fun _ => "OK") p).1 = ["ATVPOL=" ++ tok] ∧
      (get_5v_polarity (fun _ => tok)).2 = some p) ∧
    (∀ r : String, strip r = r → r ∉ (["VPOS", "VNEG", "OFF"] : List String) →
      (get_5v_polarity (fun _ => r)).2 = none) := by
  constructor
  · intro p
    cases p with
    | POSITIVE => exact ⟨"VPOS", by decide, by decide⟩
    | NEGATIVE => exact ⟨"VNEG", by decide, by decide⟩
    | OFF => exact ⟨"OFF", by decide, by decide⟩
  · intro r hr hmem
    have h1 : r ≠ "VPOS" := fun h => hmem (by simp [h])
    have h2 : r ≠ "VNEG" := fun h => hmem (by simp [h])
    have h3 : r ≠ "OFF" := fun h => hmem (by simp [h])
    simp only [get_5v_polarity, send_command, hr]
    simp [Polarity.ofValue?, h1, h2, h3]

/-- Witness for claim C3 at the unrecognized reply token HELLO. -/
theorem claim3_polarity_roundtrip_witness :
    (get_5v_polarity (fun _ => "HELLO")).2 = none :=
  claim3_polarity_roundtrip.2 "HELLO" (by decide) (by decide)

/-- Claim C4: get_variable decodes the reply V3.30 to the float value 3.3,
and decodes every reply not starting with V, among them ERROR, to 0.0
rather than signaling an error. -/
theorem claim4_get_variable (r : String) :
    ((get_variable (fun _ => "V3.30")).2 = some (PyFloat.finite 3.3)) ∧
    (strip r = r → r.toList.head? ≠ some 'V' →
      (get_variable (fun _ => r)).2 = some (PyFloat.finite 0)) ∧
    ((get_variable (fun _ => "ERROR")).2 = some (PyFloat.finite 0)) := by
  refine ⟨?_, ?_, by decide⟩
  · rw [show (get_variable (fun _ => "V3.30")).2 = some (PyFloat.finite (mkDec 3 30 2)) from rfl]
    congr 1
    rw [mkDec]
    norm_num
  · intro hr hv
    simp only [get_variable, send_command, hr, get_variable_decode]
    rcases hl : r.toList with - | ⟨c, rest⟩
    · rfl
    · have hc : c ≠ 'V' := by
        intro hcv
        apply hv
        rw [hl, hcv]
        rfl
      simp [hc]

/-- Witness for claim C4 at the reply ERROR, which does not start with
V. -/
theorem claim4_get_variable_witness :
    (get_variable (fun _ => "ERROR")).2 = some (PyFloat.finite 0) :=
  (claim4_get_variable "ERROR").2.1 (by decide) (by decide)

/-- Claim C5 as stated is false: set_ac and set_3v perform no client-side
check at all on the rail index, so a negative index does reach the
transport.  This counterexample shows set_ac with index minus one sending
the command ATAC-1=1, so the transport is touched rather than a validation
failing first. -/
theorem claim5_counterexample :
    (set_ac (fun _ => "OK") (-1) true).1 = ["ATAC-1=1"] ∧
    (set_ac (fun _ => "OK") (-1) true).1 ≠ ([] : List String) ∧
    (set_3v (fun _ => "OK") (-1) true).1 = ["AT3V-1=1"] := by decide

/-- Claim C5 amended: the single-rail setters set_ac and set_3v perform no
validation of the rail index: for every integer index x, negative ones
included, exactly one command of the form ATACx=b or AT3Vx=b is sent to
the transport, and the result is the comparison of the reply with OK. -/
theorem claim5_no_index_validation (t : Transport) (x : Int) (state : Bool) :
    (set_ac t x state).1 = ["ATAC" ++ toString x ++ "=" ++ pyBool state] ∧
    (set_3v t x state).1 = ["AT3V" ++ toString x ++ "=" ++ pyBool state] ∧
    ((set_ac t x state).2 = true ↔
      send_command t ("ATAC" ++ toString x ++ "=" ++ pyBool state) = "OK") ∧
    ((set_3v t x state).2 = true ↔
      send_command t ("AT3V" ++ toString x ++ "=" ++ pyBool state) = "OK") := by
  refine ⟨rfl, rfl, ?_, ?_⟩ <;> simp [set_ac, set_3v]

/-- Claim C6 as stated is false: the codec does expose a bulk setter for
the 5V rail class.  This counterexample shows the public operation
set_all_5v encoding exactly the commands AT5V=1 and AT5V=0. -/
theorem claim6_counterexample :
    (set_all_5v (fun _ => "OK") true) = (["AT5V=1"], true) ∧
    (set_all_5v (fun _ => "OK") false) = (["AT5V=0"], true) := by decide

/-- Claim C6 amended: the codec does expose a bulk setter for the 5V rail
class: set_all_5v encodes the command AT5V=1 or AT5V=0 and succeeds
exactly when the reply is OK, so 5V outputs are activated in bulk as well
as through the polarity operations. -/
theorem claim6_bulk_5v_setter (t : Transport) (state : Bool) :
    (set_all_5v t state).1 = ["AT5V=" ++ pyBool state] ∧
    ((set_all_5v t state).2 = true ↔
      send_command t ("AT5V=" ++ pyBool state) = "OK") := by
  refine ⟨rfl, ?_⟩
  simp [set_all_5v]

/-- Claim C7: ping, and every other operation expecting OK, compares the
entire stripped reply against the exact token OK case-sensitively: the
reply OK yields true, while the lowercase reply ok, the empty reply and
every other stripped token yield false.  The OK-expecting operations of
the source are ping, set_echo, reset, the three bulk setters, the two
single-rail setters, set_5v_polarity and (once its validation passes)
set_variable; each one is shown to produce the same comparison as
ping on the same reply. -/
theorem claim7_ok_comparison (raw : String) :
    ((ping (fun _ => raw)).2 = true ↔ strip raw = "OK") ∧
    (ping (fun _ => "OK")).2 = true ∧
    (ping (fun _ => "ok")).2 = false ∧
    (ping (fun _ => "")).2 = false ∧
    (ping (fun _ => "O")).2 = false ∧
    (set_echo (fun _ => raw) true).2 = (ping (fun _ => raw)).2 ∧
    (set_all_ac (fun _ => raw) true).2 = (ping (fun _ => raw)).2 ∧
    (set_all_3v (fun _ => raw) true).2 = (ping (fun _ => raw)).2 ∧
    (set_all_5v (fun _ => raw) true).2 = (ping (fun _ => raw)).2 ∧
    (reset (fun _ => raw)).2 = (ping (fun _ => raw)).2 ∧
    (∀ (x : Int) (state : Bool),
      (set_ac (fun _ => raw) x state).2 = (ping (fun _ => raw)).2 ∧
      (set_3v (fun _ => raw) x state).2 = (ping (fun _ => raw)).2) ∧
    (∀ p : Polarity,
      (set_5v_polarity (fun _ => raw) p).2 = (ping (fun _ => raw)).2) ∧
    (∀ n : ℚ, (n = 0 ∨ (2 ≤ n ∧ n ≤ 5)) →
      (set_variable (fun _ => raw) n).2 = VarResult.ok ((ping (fun _ => raw)).2)) := by
  refine ⟨?_, by decide, by decide, by decide, by decide,
    rfl, rfl, rfl, rfl, rfl, fun x state => ⟨rfl, rfl⟩, fun p => rfl, ?_⟩
  · simp [ping, send_command]
  · intro n hdom
    have hcond : ¬(n ≠ 0 ∧ (n < 2 ∨ 5 < n)) := by
      rcases hdom with h0 | ⟨h2, h5⟩
      · exact fun hc => hc.1 h0
      · rintro ⟨-, hlt | hgt⟩
        · linarith
        · linarith
    rw [set_variable, if_neg hcond]
    rfl

/-- Witness for claim C7: the validated set_variable at n = 3 produces the
same OK comparison as ping on the same reply, and the other OK-expecting
operations agree with ping at concrete replies and arguments. -/
theorem claim7_ok_comparison_witness :
    (set_variable (fun _ => "OK") 3).2 = VarResult.ok ((ping (fun _ => "OK")).2) ∧
    (set_ac (fun _ => "ok") 7 true).2 = (ping (fun _ => "ok")).2 ∧
    (set_3v (fun _ => "ok") 7 true).2 = (ping (fun _ => "ok")).2 ∧
    (set_5v_polarity (fun _ => "") Polarity.OFF).2 = (ping (fun _ => "")).2 := by
  have hOK := claim7_ok_comparison "OK"
  have hok := claim7_ok_comparison "ok"
  have hempty := claim7_ok_comparison ""
  exact ⟨hOK.2.2.2.2.2.2.2.2.2.2.2.2 3 (Or.inr (by decide)),
    (hok.2.2.2.2.2.2.2.2.2.2.1 7 true).1,
    (hok.2.2.2.2.2.2.2.2.2.2.1 7 true).2,
    hempty.2.2.2.2.2.2.2.2.2.2.2.1 Polarity.OFF⟩

/-- Claim C8: set_ac with index 3 and state true sends exactly the command
text ATAC3=1 to the transport, and for every reply it returns true exactly
when the reply is OK. -/
theorem claim8_set_ac_exact (r : String) (hr : strip r = r) :
    (set_ac (fun _ => r) 3 true).1 = ["ATAC3=1"] ∧
    ((set_ac (fun _ => r) 3 true).2 = true ↔ r = "OK") := by
  constructor
  · rfl
  · simp [set_ac, send_command, hr]

/-- Witness for claim C8 at the reply OK. -/
theorem claim8_set_ac_exact_witness :
    (set_ac (fun _ => "OK") 3 true).1 = ["ATAC3=1"] ∧
    ((set_ac (fun _ => "OK") 3 true).2 = true ↔ ("OK" : String) = "OK") :=
  claim8_set_ac_exact "OK" (by decide)

/-- Claim C9: the permissive 0.0 default of get_variable applies only to
replies that do not start with V: for every reply that starts with V but
whose remainder float() cannot parse, among them the reply V alone and the
reply Vabc, get_variable fails with the ValueError of float() instead of
returning a value. -/
theorem claim9_get_variable_strict (r : String) (rest : List Char)
    (hr : strip r = r) (hv : r.toList = 'V' :: rest) (hp : pyFloat? rest = none) :
    ((get_variable (fun _ => r)).2 = none) ∧
    (get_variable (fun _ => "V")).2 = none ∧
    (get_variable (fun _ => "Vabc")).2 = none := by
  refine ⟨?_, by decide, by decide⟩
  simp only [get_variable, send_command, hr, get_variable_decode, hv]
  simp [hp]

/-- Witness for claim C9 at the reply V alone, whose remainder is the
empty string, which float() rejects. -/
theorem claim9_get_variable_strict_witness :
    ((get_variable (fun _ => "V")).2 = none) ∧
    (get_variable (fun _ => "V")).2 = none ∧
    (get_variable (fun _ => "Vabc")).2 = none :=
  claim9_get_variable_strict "V" [] (by decide) (by decide) (by decide)

/-- Claim C10: unlike the variable-voltage getter, the bulk rail getters
are strict: for every reply that is not a valid hexadecimal integer
literal, among them ERROR, OK and the empty reply, get_all_ac, get_all_3v
and get_all_5v fail with the ValueError of int() rather than returning a
list or a default value. -/
theorem claim10_bulk_getters_strict (r : String) (hr : strip r = r)
    (h : pyIntHex? r = none) :
    (get_all_ac (fun _ => r)).2 = none ∧
    (get_all_3v (fun _ => r)).2 = none ∧
    (get_all_5v (fun _ => r)).2 = none ∧
    (get_all_ac (fun _ => "ERROR")).2 = none ∧
    (get_all_ac (fun _ => "OK")).2 = none ∧
    (get_all_ac (fun _ => "")).2 = none := by
  have e : decode_bitmask r = none := by
    simp only [decode_bitmask, h]
  refine ⟨?_, ?_, ?_, by decide, by decide, by decide⟩ <;>
    simpa [get_all_ac, get_all_3v, get_all_5v, send_command, hr] using e

/-- Witness for claim C10 at the reply ERROR, which int() rejects. -/
theorem claim10_bulk_getters_strict_witness :
    (get_all_ac (fun _ => "ERROR")).2 = none ∧
    (get_all_3v (fun _ => "ERROR")).2 = none ∧
    (get_all_5v (fun _ => "ERROR")).2 = none ∧
    (get_all_ac (fun _ => "ERROR")).2 = none ∧
    (get_all_ac (fun _ => "OK")).2 = none ∧
    (get_all_ac (fun _ => "")).2 = none :=
  claim10_bulk_getters_strict "ERROR" (by decide) (by decide)

end Powerstrip
